import Mathlib

/-!
Shallow embedding of the grid-based spatial autocorrelation pipeline of
`scripts/spatial_analysis.py` (function `run_spatial_analysis`), together
with proofs settling the frozen claims about it.

Conventions of the embedding:
* planar coordinates are rationals (`ℚ`), standing for the double-precision
  values of the source;
* the boundary geometry loaded from PostGIS is abstracted into its total
  bounds plus a decidable box-intersection oracle (`BoundaryTable.hits`),
  the behaviour of `grid.intersects(boundary_utm.unary_union)`;
* the `within` spatial predicate of `gpd.sjoin(..., predicate='within')`
  is, for a point against a box polygon, strict interior membership
  (a point on the polygon boundary is not `within` it);
* the permutation draws consumed by the `esda` Moran statistics come from
  the process-global random source; that ambient source is made explicit
  as an `Rng` value holding the index permutations drawn.
-/

/-- A planar point `(x, y)`. -/
abbrev Pt := ℚ × ℚ

/-- An axis-aligned rectangle, the result of `shapely.geometry.box(x1, y1, x2, y2)`. -/
structure Box where
  x1 : ℚ
  y1 : ℚ
  x2 : ℚ
  y2 : ℚ
deriving DecidableEq

/-- The `within` predicate of the spatial join for a point feature against a
grid-cell box: the point lies in the open interior of the box.  This is the
semantics of `gpd.sjoin(amenities_utm, grid, how='inner', predicate='within')`
for point geometries: a point on the boundary of the box polygon is not
`within` it. -/
def withinBox (p : Pt) (b : Box) : Bool :=
  decide (b.x1 < p.1) && decide (p.1 < b.x2) && decide (b.y1 < p.2) && decide (p.2 < b.y2)

/-- Membership of a point in the closed box (the box polygon as a point set,
boundary included). -/
def memClosedBox (p : Pt) (b : Box) : Bool :=
  decide (b.x1 ≤ p.1) && decide (p.1 ≤ b.x2) && decide (b.y1 ≤ p.2) && decide (p.2 ≤ b.y2)

/-- The four corner vertices of a box polygon. -/
def boxCorners (b : Box) : List Pt :=
  [(b.x1, b.y1), (b.x1, b.y2), (b.x2, b.y1), (b.x2, b.y2)]

/-- Queen contiguity between two box polygons as built by
`libpysal.weights.Queen.from_dataframe`: the polygons share at least one
vertex. -/
def queenTouch (a b : Box) : Bool :=
  (boxCorners a).any (fun p => decide (p ∈ boxCorners b))

/-- `int(np.ceil(extent / cell_size))`: the number of columns (resp. rows) of
the candidate lattice. -/
def ceilDiv (extent cs : ℚ) : ℕ :=
  (⌈extent / cs⌉).toNat

/-- The lattice cell of column `i` and row `j`:
`box(xmin + i*cs, ymin + j*cs, xmin + i*cs + cs, ymin + j*cs + cs)`,
exactly as built in the generation loop of `run_spatial_analysis`. -/
def mkCellBox (xmin ymin cs : ℚ) (i j : ℕ) : Box :=
  { x1 := xmin + i * cs
    y1 := ymin + j * cs
    x2 := xmin + i * cs + cs
    y2 := ymin + j * cs + cs }

/-- The candidate cells in generation order: outer loop over `i in range(cols)`,
inner loop over `j in range(rows)`. -/
def latticeCells (xmin ymin cs : ℚ) (cols rws : ℕ) : List Box :=
  (List.range cols).flatMap (fun i => (List.range rws).map (fun j => mkCellBox xmin ymin cs i j))

/-- The surviving grid: candidate cells filtered by the boundary-intersection
test (`grid[grid.intersects(boundary_utm.unary_union)]`) and reindexed by
`reset_index(drop=True)`; as a list, positions are the contiguous new indices. -/
def buildGrid (xmin ymin xmax ymax cs : ℚ) (keep : Box → Bool) : List Box :=
  (latticeCells xmin ymin cs (ceilDiv (xmax - xmin) cs) (ceilDiv (ymax - ymin) cs)).filter keep

/-- Number of point features whose location is `within` the cell box: the
per-cell result of the spatial join plus `value_counts`. -/
def cellCount (pts : List Pt) (b : Box) : ℕ :=
  (pts.filter (fun p => withinBox p b)).length

/-- The per-cell count column `grid['count']` (`fillna(0)` gives unmatched
cells count 0). -/
def countVector (grid : List Box) (pts : List Pt) : List ℕ :=
  grid.map (cellCount pts)

/-- Number of grid cells a given point is `within`. -/
def pointCellCount (grid : List Box) (p : Pt) : ℕ :=
  (grid.filter (fun b => withinBox p b)).length

/-- The cell box stored at index `i` of the grid. -/
def boxAt (grid : List Box) (i : ℕ) : Box :=
  grid.getD i ⟨0, 0, 0, 0⟩

/-- Neighbor set of cell `i` in the Queen contiguity graph built by
`libpysal.weights.Queen.from_dataframe(grid)`: the other cells whose box
polygon shares at least one vertex with cell `i`. -/
def neighborsOf (grid : List Box) (i : ℕ) : List ℕ :=
  (List.range grid.length).filter (fun j => decide (j ≠ i) && queenTouch (boxAt grid i) (boxAt grid j))

/-- Binary Queen weight before transformation: 1 for a neighbor, 0 otherwise. -/
def binW (grid : List Box) (i j : ℕ) : ℚ :=
  if j ∈ neighborsOf grid i then 1 else 0

/-- Row total of the binary weights of cell `i`. -/
def rowTotal (grid : List Box) (i : ℕ) : ℚ :=
  ∑ j in Finset.range grid.length, binW grid i j

/-- Row-standardized weight `w_ij` after `w.transform = 'R'`: each non-empty
row is divided by its total; a row with no neighbors stays empty. -/
def wgt (grid : List Box) (i j : ℕ) : ℚ :=
  if rowTotal grid i = 0 then 0 else binW grid i j / rowTotal grid i

/-- Sum of all (row-standardized) weights, `w.s0`. -/
def s0 (grid : List Box) : ℚ :=
  ∑ i in Finset.range grid.length, ∑ j in Finset.range grid.length, wgt grid i j

/-- Mean of the count vector. -/
def meanOf (y : List ℚ) : ℚ :=
  y.sum / y.length

/-- Deviations from the mean, `z_i = y_i - mean(y)`. -/
def zvec (y : List ℚ) : List ℚ :=
  y.map (fun v => v - meanOf y)

/-- Entry `i` of a vector of rationals (0 past the end). -/
def zAt (z : List ℚ) (i : ℕ) : ℚ :=
  z.getD i 0

/-- Spatial lag of cell `i`: `Σ_j w_ij * z_j`. -/
def lagAt (grid : List Box) (z : List ℚ) (i : ℕ) : ℚ :=
  ∑ j in Finset.range grid.length, wgt grid i j * zAt z j

/-- Sum of squared deviations `Σ_i z_i^2` (esda `z2ss`). -/
def z2ss (z : List ℚ) : ℚ :=
  (z.map (fun v => v * v)).sum

/-- The inner product `Σ_i z_i * (W z)_i` of esda's `Moran.__calc`. -/
def moranNum (grid : List Box) (z : List ℚ) : ℚ :=
  ∑ i in Finset.range grid.length, zAt z i * lagAt grid z i

/-- esda's `Moran.__calc(z)`: `n / S0 * Σ_i z_i (W z)_i / z2ss`, where `z2ss`
is the sum of squares of the observed deviations (also under permutation). -/
def moranCalc (grid : List Box) (zsq : ℚ) (z : List ℚ) : ℚ :=
  ((grid.length : ℚ) / s0 grid) * moranNum grid z / zsq

/-- Observed Global Moran's I of the count vector, `Moran(y, w).I`. -/
def moranI (grid : List Box) (y : List ℚ) : ℚ :=
  moranCalc grid (z2ss (zvec y)) (zvec y)

/-- A permutation draw applied to the deviation vector:
`np.random.permutation(z)` represented by the list of source indices. -/
def applyPerm (z : List ℚ) (sigma : List ℕ) : List ℚ :=
  sigma.map (fun k => zAt z k)

/-- The permuted statistics `sim` of `Moran`: one recomputed `I` per draw. -/
def simsOf (grid : List Box) (y : List ℚ) (draws : List (List ℕ)) : List ℚ :=
  draws.map (fun sigma => moranCalc grid (z2ss (zvec y)) (applyPerm (zvec y) sigma))

/-- esda's folded count of extreme permutation statistics: `larger = #(sim >= I)`,
replaced by `permutations - larger` when that is smaller. -/
def extremeCount (grid : List Box) (y : List ℚ) (draws : List (List ℕ)) : ℕ :=
  let larger := (simsOf grid y draws).countP (fun s => decide (moranI grid y ≤ s))
  if draws.length - larger < larger then draws.length - larger else larger

/-- The pseudo p-value `Moran(y, w).p_sim = (larger + 1) / (permutations + 1)`. -/
def pSim (grid : List Box) (y : List ℚ) (draws : List (List ℕ)) : ℚ :=
  ((extremeCount grid y draws : ℚ) + 1) / ((draws.length : ℚ) + 1)

/-- The default `permutations` argument of `Moran` and `Moran_Local`, used by
the script since it passes none. -/
def moranPermDefault : ℕ := 999

/-- LISA quadrant of cell `i` (esda `Moran_Local.q`): 1 = HH, 2 = LL, 3 = HL,
4 = LH, decided by the signs of `z_i` and of the spatial lag of `z` at `i`
(a non-positive value counts as the low side). -/
def quadrant (grid : List Box) (y : List ℚ) (i : ℕ) : ℕ :=
  if 0 < zAt (zvec y) i then
    (if 0 < lagAt grid (zvec y) i then 1 else 3)
  else
    (if 0 < lagAt grid (zvec y) i then 4 else 2)

/-- Observed Local Moran statistic of cell `i` (up to esda's fixed positive
global normalization, here `n / z2ss`): `(n / Σ z^2) * z_i * Σ_j w_ij z_j`. -/
def localIs (grid : List Box) (y : List ℚ) (i : ℕ) : ℚ :=
  ((grid.length : ℚ) / z2ss (zvec y)) * zAt (zvec y) i * lagAt grid (zvec y) i

/-- The other cell indices, in index order: the positions whose values are
shuffled by the conditional permutation for cell `i`. -/
def othersOf (n i : ℕ) : List ℕ :=
  (List.range n).filter (fun j => decide (j ≠ i))

/-- The deviation vector after one conditional permutation draw for cell `i`:
cell `i` keeps its own value, the other positions receive the other cells'
values reordered by `sigma` (a permutation of `othersOf n i`). -/
def condZ (n : ℕ) (z : List ℚ) (i : ℕ) (sigma : List ℕ) (j : ℕ) : ℚ :=
  if j = i then zAt z i else zAt z (sigma.getD ((othersOf n i).indexOf j) 0)

/-- One permuted Local Moran statistic for cell `i`. -/
def localSim (grid : List Box) (y : List ℚ) (i : ℕ) (sigma : List ℕ) : ℚ :=
  ((grid.length : ℚ) / z2ss (zvec y)) * zAt (zvec y) i *
    ∑ j in Finset.range grid.length, wgt grid i j * condZ grid.length (zvec y) i sigma j

/-- Folded extreme count of the conditional permutation test for cell `i`. -/
def localExtreme (grid : List Box) (y : List ℚ) (i : ℕ) (draws : List (List ℕ)) : ℕ :=
  let larger := (draws.map (localSim grid y i)).countP (fun s => decide (localIs grid y i ≤ s))
  if draws.length - larger < larger then draws.length - larger else larger

/-- Per-cell pseudo p-value `Moran_Local(y, w).p_sim[i]`. -/
def localPSim (grid : List Box) (y : List ℚ) (i : ℕ) (draws : List (List ℕ)) : ℚ :=
  ((localExtreme grid y i draws : ℚ) + 1) / ((draws.length : ℚ) + 1)

/-- The hard-coded significance threshold of the script
(`grid['lisa_p_sim'] > 0.05`). -/
def alphaDefault : ℚ := 1 / 20

/-- The dictionary `cluster_labels = {0: 'NS', 1: 'HH', 2: 'LL', 3: 'HL', 4: 'LH'}`. -/
def clusterLabels : List (ℕ × String) :=
  [(0, "NS"), (1, "HH"), (2, "LL"), (3, "HL"), (4, "LH")]

/-- `pandas.Series.map` through the label dictionary (a missing key maps to
missing data). -/
def labelOf (k : ℕ) : Option String :=
  clusterLabels.lookup k

/-- The `lisa_cluster` column after the significance overwrite:
`grid['lisa_cluster'] = lisa.q` then
`grid.loc[grid['lisa_p_sim'] > 0.05, 'lisa_cluster'] = 0`. -/
def lisaClusterAt (grid : List Box) (y : List ℚ) (pv : List ℚ) (i : ℕ) : ℕ :=
  if alphaDefault < pv.getD i 0 then 0 else quadrant grid y i

/-- The `cluster_type` column: the thresholded cluster codes mapped through
the label dictionary, one label per cell in cell order. -/
def clusterTypes (grid : List Box) (y : List ℚ) (pv : List ℚ) : List (Option String) :=
  (List.range grid.length).map (fun i => labelOf (lisaClusterAt grid y pv i))

/-- The boundary table loaded from `raw_data.comuna_boundaries`, abstracted
into its row count, the total bounds of its (reprojected) geometries, and the
decidable test `box.intersects(unary_union of the geometries)`. -/
structure BoundaryTable where
  nrows : ℕ
  bounds : Box
  hits : Box → Bool

/-- The inputs of one invocation of `run_spatial_analysis`, with the external
failure points made explicit: `setupError` is a failure of the pre-`try`
setup (creating the output directory at line 36, building the engine), and
`loadError` / `saveError` are failures of the PostGIS reads and of the
GeoJSON/PostGIS writes inside the `try` block. -/
structure PipelineInput where
  boundary : BoundaryTable
  amenities : List Pt
  setupError : Option String
  loadError : Option String
  saveError : Option String

/-- The ambient (unseeded) random source the esda permutation tests draw
from: the global Moran draws and, per cell, the conditional LISA draws. -/
structure Rng where
  globalDraws : List (List ℕ)
  localDraws : ℕ → List (List ℕ)

/-- One per-cell output record of the saved grid layer. -/
structure CellRecord where
  geometry : Box
  count : ℕ
  lisa_p : ℚ
  cluster : ℕ
  cluster_type : Option String
deriving DecidableEq

/-- The hard-coded `cell_size = 500` of the script. -/
def cellSizeDefault : ℚ := 500

/-- `grid['lisa_p_sim']`: per-cell conditional-permutation pseudo p-values,
each using the library default of 999 draws from the ambient source. -/
def lisaPs (grid : List Box) (y : List ℚ) (rng : Rng) : List ℚ :=
  (List.range grid.length).map
    (fun i => localPSim grid y i ((rng.localDraws i).take moranPermDefault))

/-- The body of the `try` block after the emptiness check: grid construction,
density aggregation, weights, Moran statistics, classification, and the two
save steps.  An `.error` is an exception reaching the `except` handler. -/
def pipelineBody (inp : PipelineInput) (rng : Rng) : Except String (List CellRecord × ℚ × ℚ) :=
  let b := inp.boundary.bounds
  let grid := buildGrid b.x1 b.y1 b.x2 b.y2 cellSizeDefault inp.boundary.hits
  if grid.length = 0 then .error "empty grid" else
    let cv := countVector grid inp.amenities
    let y := cv.map (fun k => (k : ℚ))
    let gI := moranI grid y
    let gP := pSim grid y (rng.globalDraws.take moranPermDefault)
    let pv := lisaPs grid y rng
    let recs := (List.range grid.length).map (fun i =>
      { geometry := boxAt grid i
        count := cv.getD i 0
        lisa_p := pv.getD i 0
        cluster := lisaClusterAt grid y pv i
        cluster_type := labelOf (lisaClusterAt grid y pv i) : CellRecord })
    match inp.saveError with
    | some e => .error e
    | none => .ok (recs, gI, gP)

/-- How one invocation ended: pre-`try` setup raised; data loading raised and
was caught; the emptiness check logged and returned early; the catch-all
handler caught an exception; or the run completed and saved its records. -/
inductive Outcome where
  | setupFailed (msg : String)
  | noData
  | caught (msg : String)
  | saved (recs : List CellRecord) (globalI : ℚ) (globalP : ℚ)
deriving DecidableEq

/-- What the caller of `run_spatial_analysis` observes: a propagated
exception (if any), the returned value (the function always returns `None`),
plus the internal outcome for stating properties. -/
structure RunResult where
  raised : Option String
  retVal : Option (List CellRecord)
  outcome : Outcome

/-- Shallow embedding of `run_spatial_analysis`: the unguarded setup, the
`try` block (loads, emptiness check with early `return`, the pipeline body)
and the catch-all `except Exception` handler that logs and falls off the end
of the function (returning `None`). -/
def run_spatial_analysis (inp : PipelineInput) (rng : Rng) : RunResult :=
  match inp.setupError with
  | some e => { raised := some e, retVal := none, outcome := .setupFailed e }
  | none =>
    match inp.loadError with
    | some e => { raised := none, retVal := none, outcome := .caught e }
    | none =>
      if inp.boundary.nrows = 0 ∨ inp.amenities = [] then
        { raised := none, retVal := none, outcome := .noData }
      else
        match pipelineBody inp rng with
        | .ok (recs, gI, gP) => { raised := none, retVal := none, outcome := .saved recs gI gP }
        | .error e => { raised := none, retVal := none, outcome := .caught e }

/-- A planar region as a set of points (the geometric union of the boundary
polygons). -/
def Region := Pt → Prop

/-- Geometric (set-level) intersection of a cell box with a region: the box,
taken as the closed point set of its polygon, meets the region.  This is the
meaning of `shapely`'s `intersects` used by the grid filter. -/
def SetIntersects (b : Box) (R : Region) : Prop :=
  ∃ p : Pt, memClosedBox p b = true ∧ R p

/-- The Global Moran's I formula exactly as the specification writes it:
`I = (n / S0) * (Σ_i Σ_j w_ij * z_i * z_j) / (Σ_i z_i^2)`. -/
def specGlobalMoranI (grid : List Box) (y : List ℚ) : ℚ :=
  ((grid.length : ℚ) / s0 grid) *
      (∑ i in Finset.range grid.length, ∑ j in Finset.range grid.length,
        wgt grid i j * zAt (zvec y) i * zAt (zvec y) j) /
    z2ss (zvec y)

/-- The claim's count of permuted statistics at least as extreme as the
observed `I` (two-sided, i.e. the smaller tail): the minimum of the count of
simulated values above-or-equal and the count strictly below. -/
def specExtremeCount (grid : List Box) (y : List ℚ) (draws : List (List ℕ)) : ℕ :=
  min ((simsOf grid y draws).countP (fun s => decide (moranI grid y ≤ s)))
    ((simsOf grid y draws).countP (fun s => decide (s < moranI grid y)))

lemma getD_range_map {α : Type} (n i : ℕ) (f : ℕ → α) (d : α) (h : i < n) :
    ((List.range n).map f).getD i d = f i := by
  rw [List.getD_eq_getElem?_getD, List.getElem?_map, List.getElem?_range h]
  rfl

lemma quadrant_cases (grid : List Box) (y : List ℚ) (i : ℕ) :
    quadrant grid y i = 1 ∨ quadrant grid y i = 2 ∨ quadrant grid y i = 3 ∨ quadrant grid y i = 4 := by
  unfold quadrant
  split <;> split <;> simp

/-- C1: in the output grid, the final cluster label is `NS` exactly when the
cell's LISA pseudo p-value exceeds 0.05; otherwise it is the label of the
quadrant computed by the local Moran statistic, through the dictionary
`{0: NS, 1: HH, 2: LL, 3: HL, 4: LH}`; hence every `HH` or `LL` cell has
`p_value <= alpha`, and the label column has one entry per cell with entry
`i` classifying cell `i`. -/
theorem cluster_label_ns_iff_not_significant (grid : List Box) (y pv : List ℚ) (i : ℕ)
    (h : i < grid.length) :
    ((clusterTypes grid y pv).getD i none = some "NS" ↔ alphaDefault < pv.getD i 0)
    ∧ (pv.getD i 0 ≤ alphaDefault →
        (clusterTypes grid y pv).getD i none = labelOf (quadrant grid y i))
    ∧ (((clusterTypes grid y pv).getD i none = some "HH"
        ∨ (clusterTypes grid y pv).getD i none = some "LL") → pv.getD i 0 ≤ alphaDefault)
    ∧ (clusterTypes grid y pv).length = grid.length := by
  have hlen : (clusterTypes grid y pv).length = grid.length := by
    simp [clusterTypes]
  have hget : (clusterTypes grid y pv).getD i none = labelOf (lisaClusterAt grid y pv i) :=
    getD_range_map grid.length i _ none h
  rw [hget]
  unfold lisaClusterAt
  by_cases hp : alphaDefault < pv.getD i 0
  · rw [if_pos hp]
    refine ⟨iff_of_true (by decide) hp, fun hle => absurd hp (not_lt.mpr hle), ?_, hlen⟩
    intro hc
    rcases hc with hc | hc <;> exact absurd hc (by decide)
  · rw [if_neg hp]
    have hq := quadrant_cases grid y i
    refine ⟨?_, fun _ => rfl, fun _ => not_lt.mp hp, hlen⟩
    constructor
    · intro hns
      exfalso
      rcases hq with hq | hq | hq | hq <;> rw [hq] at hns <;> exact absurd hns (by decide)
    · intro hlt
      exact absurd hlt hp

lemma countP_not_add (l : List ℚ) (p : ℚ → Bool) :
    l.countP (fun a => !(p a)) = l.length - l.countP p := by
  induction l with
  | nil => simp
  | cons a t ih =>
    have hle := List.countP_le_length (p := p) (l := t)
    by_cases hpa : p a = true <;>
      simp [List.countP_cons, hpa, ih] <;> omega

/-- C2: Global Moran's I equals the spec's formula
`(n / S0) * (Σ_i Σ_j w_ij z_i z_j) / (Σ_i z_i^2)` with `z_i = y_i - mean y`
and `S0` the sum of all weights, and the permutation pseudo p-value is
`(count_as_extreme + 1) / (permutations + 1)` where `count_as_extreme` is the
two-sided (smaller-tail) count of permuted statistics at least as extreme as
the observed `I`; the default number of permutations is 999. -/
theorem global_moran_formula_and_psim (grid : List Box) (y : List ℚ) (draws : List (List ℕ)) :
    moranI grid y = specGlobalMoranI grid y
    ∧ pSim grid y draws
        = ((specExtremeCount grid y draws : ℚ) + 1) / ((draws.length : ℚ) + 1)
    ∧ moranPermDefault = 999 := by
  refine ⟨?_, ?_, rfl⟩
  · unfold moranI moranCalc specGlobalMoranI moranNum lagAt
    congr 2
    refine Finset.sum_congr rfl (fun i _ => ?_)
    rw [Finset.mul_sum]
    refine Finset.sum_congr rfl (fun j _ => ?_)
    ring
  · have hb : ∀ s : ℚ, (decide (s < moranI grid y))
        = !(decide (moranI grid y ≤ s)) := by
      intro s
      by_cases hs : moranI grid y ≤ s <;> simp [hs, not_le.mpr, lt_iff_not_ge] <;>
        simp [not_le.mpr (lt_of_not_ge hs)]
    have hcount : (simsOf grid y draws).countP (fun s => decide (s < moranI grid y))
        = (simsOf grid y draws).length
          - (simsOf grid y draws).countP (fun s => decide (moranI grid y ≤ s)) := by
      rw [← countP_not_add]
      exact List.countP_congr (fun s _ => by rw [hb s])
    have hlen : (simsOf grid y draws).length = draws.length := by
      simp [simsOf]
    have hle := List.countP_le_length
      (p := fun s => decide (moranI grid y ≤ s)) (l := simsOf grid y draws)
    rw [hlen] at hle
    have hnat : extremeCount grid y draws = specExtremeCount grid y draws := by
      simp only [extremeCount, specExtremeCount]
      rw [hcount, hlen]
      split <;> omega
    unfold pSim
    rw [hnat]

lemma neighborsOf_lt (grid : List Box) (i j : ℕ) (h : j ∈ neighborsOf grid i) :
    j < grid.length := by
  unfold neighborsOf at h
  exact List.mem_range.mp (List.mem_of_mem_filter h)

lemma neighborsOf_nodup (grid : List Box) (i : ℕ) : (neighborsOf grid i).Nodup :=
  (List.nodup_range grid.length).filter _

lemma rowTotal_eq_card (grid : List Box) (i : ℕ) :
    rowTotal grid i = ((neighborsOf grid i).length : ℚ) := by
  unfold rowTotal binW
  rw [Finset.sum_congr rfl
    (fun j _ => if_congr (List.mem_toFinset (a := j) (l := neighborsOf grid i)).symm rfl rfl)]
  rw [Finset.sum_ite_mem]
  have hset : Finset.range grid.length ∩ (neighborsOf grid i).toFinset
      = (neighborsOf grid i).toFinset := by
    refine Finset.inter_eq_right.mpr (fun j hj => ?_)
    exact Finset.mem_range.mpr (neighborsOf_lt grid i j (List.mem_toFinset.mp hj))
  rw [hset, Finset.sum_const, List.toFinset_card_of_nodup (neighborsOf_nodup grid i)]
  simp

/-- C3: the weights graph is row-standardized Queen contiguity: every cell
with at least one neighbor gives each neighbor the weight
`1 / |neighbors|`, and its weight row sums to exactly 1 (hence within the
`1e-9` tolerance); a cell with no neighbors keeps an all-zero (empty) row,
with no division by zero performed. -/
theorem weights_row_standardized (grid : List Box) (i : ℕ)
    (hne : neighborsOf grid i ≠ []) :
    (∀ j ∈ neighborsOf grid i, wgt grid i j = 1 / ((neighborsOf grid i).length : ℚ))
    ∧ (∑ j in Finset.range grid.length, wgt grid i j) = 1
    ∧ |(1 : ℚ) - ∑ j in Finset.range grid.length, wgt grid i j| ≤ 1 / 1000000000
    ∧ (∀ k : ℕ, neighborsOf grid k = [] → ∀ j, wgt grid k j = 0) := by
  have hpos : 0 < (neighborsOf grid i).length := List.length_pos.mpr hne
  have htot : rowTotal grid i = ((neighborsOf grid i).length : ℚ) := rowTotal_eq_card grid i
  have htne : rowTotal grid i ≠ 0 := by
    rw [htot]
    exact_mod_cast Nat.pos_iff_ne_zero.mp hpos
  have hzero : ∀ k : ℕ, neighborsOf grid k = [] → ∀ j, wgt grid k j = 0 := by
    intro k hk j
    have : rowTotal grid k = 0 := by
      rw [rowTotal_eq_card grid k, hk]
      simp
    simp [wgt, this]
  refine ⟨?_, ?_, ?_, hzero⟩
  · intro j hj
    rw [wgt, if_neg htne, binW, if_pos hj, htot]
  · have : (∑ j in Finset.range grid.length, wgt grid i j)
        = (∑ j in Finset.range grid.length, binW grid i j) / rowTotal grid i := by
      rw [Finset.sum_div]
      exact Finset.sum_congr rfl (fun j _ => by rw [wgt, if_neg htne])
    rw [this]
    exact div_self htne
  · have : (∑ j in Finset.range grid.length, wgt grid i j)
        = (∑ j in Finset.range grid.length, binW grid i j) / rowTotal grid i := by
      rw [Finset.sum_div]
      exact Finset.sum_congr rfl (fun j _ => by rw [wgt, if_neg htne])
    rw [this]
    rw [show (∑ j in Finset.range grid.length, binW grid i j) = rowTotal grid i from rfl]
    rw [div_self htne]
    norm_num

/-- Witness for C3 on a concrete 2-by-1 grid of touching cells. -/
theorem weights_row_standardized_witness :
    neighborsOf [Box.mk 0 0 1 1, Box.mk 1 0 2 1] 0 ≠ []
    ∧ ((∀ j ∈ neighborsOf [Box.mk 0 0 1 1, Box.mk 1 0 2 1] 0,
          wgt [Box.mk 0 0 1 1, Box.mk 1 0 2 1] 0 j
            = 1 / ((neighborsOf [Box.mk 0 0 1 1, Box.mk 1 0 2 1] 0).length : ℚ))
        ∧ (∑ j in Finset.range ([Box.mk 0 0 1 1, Box.mk 1 0 2 1] : List Box).length,
            wgt [Box.mk 0 0 1 1, Box.mk 1 0 2 1] 0 j) = 1
        ∧ |(1 : ℚ) - ∑ j in Finset.range ([Box.mk 0 0 1 1, Box.mk 1 0 2 1] : List Box).length,
            wgt [Box.mk 0 0 1 1, Box.mk 1 0 2 1] 0 j| ≤ 1 / 1000000000
        ∧ (∀ k : ℕ, neighborsOf [Box.mk 0 0 1 1, Box.mk 1 0 2 1] k = []
            → ∀ j, wgt [Box.mk 0 0 1 1, Box.mk 1 0 2 1] k j = 0)) :=
  ⟨by decide, weights_row_standardized [Box.mk 0 0 1 1, Box.mk 1 0 2 1] 0 (by decide)⟩

/-- Witness for C1 on a concrete two-cell grid with p-values 0.01 and 0.1. -/
theorem cluster_label_ns_iff_not_significant_witness :
    (0 : ℕ) < ([Box.mk 0 0 1 1, Box.mk 1 0 2 1] : List Box).length
    ∧ (((clusterTypes [Box.mk 0 0 1 1, Box.mk 1 0 2 1] [1, 3] [1/100, 1/10]).getD 0 none
          = some "NS" ↔ alphaDefault < ([1/100, 1/10] : List ℚ).getD 0 0)
        ∧ (([1/100, 1/10] : List ℚ).getD 0 0 ≤ alphaDefault →
            (clusterTypes [Box.mk 0 0 1 1, Box.mk 1 0 2 1] [1, 3] [1/100, 1/10]).getD 0 none
              = labelOf (quadrant [Box.mk 0 0 1 1, Box.mk 1 0 2 1] [1, 3] 0))
        ∧ (((clusterTypes [Box.mk 0 0 1 1, Box.mk 1 0 2 1] [1, 3] [1/100, 1/10]).getD 0 none
              = some "HH"
            ∨ (clusterTypes [Box.mk 0 0 1 1, Box.mk 1 0 2 1] [1, 3] [1/100, 1/10]).getD 0 none
              = some "LL")
          → ([1/100, 1/10] : List ℚ).getD 0 0 ≤ alphaDefault)
        ∧ (clusterTypes [Box.mk 0 0 1 1, Box.mk 1 0 2 1] [1, 3] [1/100, 1/10]).length
            = ([Box.mk 0 0 1 1, Box.mk 1 0 2 1] : List Box).length) :=
  ⟨by decide,
    cluster_label_ns_iff_not_significant [Box.mk 0 0 1 1, Box.mk 1 0 2 1] [1, 3]
      [1/100, 1/10] 0 (by decide)⟩

lemma flatMap_const_length {α : Type} (c m : ℕ) (f : ℕ → List α) (h : ∀ k, (f k).length = m) :
    ((List.range c).flatMap f).length = c * m := by
  rw [List.length_flatMap]
  have hmap : List.map (List.length ∘ f) (List.range c) = List.replicate c m := by
    rw [List.eq_replicate_iff]
    refine ⟨by simp, fun b hb => ?_⟩
    rcases List.mem_map.mp hb with ⟨a, _, rfl⟩
    exact h a
  rw [hmap, List.sum_replicate, smul_eq_mul]

lemma flatMap_getD {α : Type} (c m i j : ℕ) (f : ℕ → List α) (d : α)
    (h : ∀ k, (f k).length = m) (hi : i < c) (hj : j < m) :
    ((List.range c).flatMap f).getD (i * m + j) d = (f i).getD j d := by
  induction c with
  | zero => omega
  | succ n ih =>
    rw [List.range_succ, List.flatMap_append]
    by_cases hin : i < n
    · have hlt : i * m + j < ((List.range n).flatMap f).length := by
        rw [flatMap_const_length n m f h]
        calc i * m + j < i * m + m := by omega
          _ = (i + 1) * m := by ring
          _ ≤ n * m := Nat.mul_le_mul_right m hin
      rw [List.getD_append _ _ d _ hlt]
      exact ih hin
    · have hieq : i = n := by omega
      subst hieq
      have hge : ((List.range i).flatMap f).length ≤ i * m + j := by
        rw [flatMap_const_length i m f h]
        omega
      rw [List.getD_append_right _ _ d _ hge, flatMap_const_length i m f h]
      simp [Nat.add_sub_cancel_left]

lemma latticeCells_length (xmin ymin cs : ℚ) (cols rws : ℕ) :
    (latticeCells xmin ymin cs cols rws).length = cols * rws := by
  unfold latticeCells
  exact flatMap_const_length cols rws _ (fun k => by simp)

lemma latticeCells_getD (xmin ymin cs : ℚ) (cols rws i j : ℕ) (hi : i < cols) (hj : j < rws) :
    (latticeCells xmin ymin cs cols rws).getD (i * rws + j) ⟨0, 0, 0, 0⟩
      = mkCellBox xmin ymin cs i j := by
  unfold latticeCells
  rw [flatMap_getD cols rws i j _ _ (fun k => by simp) hi hj]
  exact getD_range_map rws j _ _ hj

/-- C6: the grid builder lays a lattice of `cell_size` squares over the
bounding box starting at its minimum corner, with `ceil(extent / cell_size)`
columns and rows; the candidate cell of column `i` and row `j` sits at
generation-order index `i * rows + j`, and the surviving grid is an
order-preserving subsequence of that candidate list (indices are assigned to
surviving cells in generation order). -/
theorem grid_builder_lattice_layout (xmin ymin xmax ymax cs : ℚ) (keep : Box → Bool)
    (i j : ℕ) (hi : i < ceilDiv (xmax - xmin) cs) (hj : j < ceilDiv (ymax - ymin) cs) :
    (latticeCells xmin ymin cs (ceilDiv (xmax - xmin) cs) (ceilDiv (ymax - ymin) cs)).length
      = ceilDiv (xmax - xmin) cs * ceilDiv (ymax - ymin) cs
    ∧ (latticeCells xmin ymin cs (ceilDiv (xmax - xmin) cs)
          (ceilDiv (ymax - ymin) cs)).getD (i * ceilDiv (ymax - ymin) cs + j) ⟨0, 0, 0, 0⟩
        = { x1 := xmin + i * cs, y1 := ymin + j * cs,
            x2 := xmin + i * cs + cs, y2 := ymin + j * cs + cs }
    ∧ (buildGrid xmin ymin xmax ymax cs keep).Sublist
        (latticeCells xmin ymin cs (ceilDiv (xmax - xmin) cs) (ceilDiv (ymax - ymin) cs)) := by
  refine ⟨latticeCells_length xmin ymin cs _ _, ?_, List.filter_sublist _⟩
  exact latticeCells_getD xmin ymin cs _ _ i j hi hj

/-- Witness for C6: a 1000 by 700 extent with 500-unit cells gives a 2-by-2
candidate lattice; the cell of column 1, row 0 sits at index `1 * 2 + 0`. -/
theorem grid_builder_lattice_layout_witness :
    ((1 : ℕ) < ceilDiv (1000 - 0) 500 ∧ (0 : ℕ) < ceilDiv (700 - 0) 500)
    ∧ ((latticeCells 0 0 500 (ceilDiv (1000 - 0) 500) (ceilDiv (700 - 0) 500)).length
        = ceilDiv (1000 - 0) 500 * ceilDiv (700 - 0) 500
      ∧ (latticeCells 0 0 500 (ceilDiv (1000 - 0) 500)
            (ceilDiv (700 - 0) 500)).getD (1 * ceilDiv (700 - 0) 500 + 0) ⟨0, 0, 0, 0⟩
          = { x1 := 0 + (1 : ℕ) * 500, y1 := 0 + (0 : ℕ) * 500,
              x2 := 0 + (1 : ℕ) * 500 + 500, y2 := 0 + (0 : ℕ) * 500 + 500 }
      ∧ (buildGrid 0 0 1000 700 500 (fun _ => true)).Sublist
          (latticeCells 0 0 500 (ceilDiv (1000 - 0) 500) (ceilDiv (700 - 0) 500))) :=
  ⟨⟨by norm_num [ceilDiv], by norm_num [ceilDiv]⟩,
    grid_builder_lattice_layout 0 0 1000 700 500 (fun _ => true) 1 0
      (by norm_num [ceilDiv]) (by norm_num [ceilDiv])⟩

/-- A filled closed rectangle as a region (a concrete boundary union). -/
def rectRegion (a b c d : ℚ) : Region :=
  fun p => a ≤ p.1 ∧ p.1 ≤ c ∧ b ≤ p.2 ∧ p.2 ≤ d

/-- Decidable box-against-rectangle intersection test (interval overlap). -/
def rectKeep (a b c d : ℚ) (bx : Box) : Bool :=
  decide (bx.x1 ≤ bx.x2) && decide (bx.y1 ≤ bx.y2) && decide (bx.x1 ≤ c)
    && decide (a ≤ bx.x2) && decide (bx.y1 ≤ d) && decide (b ≤ bx.y2)

lemma rectKeep_decides (a b c d : ℚ) (hac : a ≤ c) (hbd : b ≤ d) :
    ∀ bx : Box, rectKeep a b c d bx = true ↔ SetIntersects bx (rectRegion a b c d) := by
  intro bx
  constructor
  · intro hk
    simp only [rectKeep, Bool.and_eq_true, decide_eq_true_eq] at hk
    obtain ⟨⟨⟨⟨⟨h1, h2⟩, h3⟩, h4⟩, h5⟩, h6⟩ := hk
    refine ⟨(max bx.x1 a, max bx.y1 b), ?_, ?_⟩
    · simp only [memClosedBox, Bool.and_eq_true, decide_eq_true_eq]
      exact ⟨⟨⟨le_max_left _ _, max_le h1 h4⟩, le_max_left _ _⟩, max_le h2 h6⟩
    · exact ⟨le_max_right _ _, max_le h3 hac, le_max_right _ _, max_le h5 hbd⟩
  · rintro ⟨p, hmem, hreg⟩
    simp only [memClosedBox, Bool.and_eq_true, decide_eq_true_eq] at hmem
    obtain ⟨⟨⟨hx1, hx2⟩, hy1⟩, hy2⟩ := hmem
    obtain ⟨ha, hc, hb, hd⟩ := hreg
    simp only [rectKeep, Bool.and_eq_true, decide_eq_true_eq]
    exact ⟨⟨⟨⟨⟨le_trans hx1 hx2, le_trans hy1 hy2⟩, le_trans hx1 hc⟩,
      le_trans ha hx2⟩, le_trans hy1 hd⟩, le_trans hb hy2⟩

/-- C5: when the decidable filter test decides geometric (set-level)
intersection with the boundary union, a cell survives in the built grid
exactly when it is a candidate lattice cell whose box meets the boundary
union as point sets; the surviving cells carry the contiguous list positions
`0..N-1`, and the downstream structures stay indexed by that same range: the
count vector has one entry per cell and every Queen neighbor index is below
the grid length. -/
theorem grid_keeps_cells_meeting_boundary (R : Region) (keep : Box → Bool)
    (h : ∀ b : Box, keep b = true ↔ SetIntersects b R)
    (xmin ymin xmax ymax cs : ℚ) (pts : List Pt) (c : Box) (i : ℕ) :
    (c ∈ buildGrid xmin ymin xmax ymax cs keep ↔
      c ∈ latticeCells xmin ymin cs (ceilDiv (xmax - xmin) cs) (ceilDiv (ymax - ymin) cs)
        ∧ SetIntersects c R)
    ∧ (countVector (buildGrid xmin ymin xmax ymax cs keep) pts).length
        = (buildGrid xmin ymin xmax ymax cs keep).length
    ∧ (∀ j ∈ neighborsOf (buildGrid xmin ymin xmax ymax cs keep) i,
        j < (buildGrid xmin ymin xmax ymax cs keep).length) := by
  refine ⟨?_, by simp [countVector], fun j hj => neighborsOf_lt _ i j hj⟩
  rw [buildGrid, List.mem_filter, h c]

/-- Witness for C5: the 700-by-700 rectangle boundary inside a 1000-by-1000
bounding box with 500-unit cells. -/
theorem grid_keeps_cells_meeting_boundary_witness :
    (∀ bx : Box, rectKeep 0 0 700 700 bx = true ↔ SetIntersects bx (rectRegion 0 0 700 700))
    ∧ ((Box.mk 0 0 500 500 ∈ buildGrid 0 0 1000 1000 500 (rectKeep 0 0 700 700) ↔
        Box.mk 0 0 500 500
            ∈ latticeCells 0 0 500 (ceilDiv (1000 - 0) 500) (ceilDiv (1000 - 0) 500)
          ∧ SetIntersects (Box.mk 0 0 500 500) (rectRegion 0 0 700 700))
      ∧ (countVector (buildGrid 0 0 1000 1000 500 (rectKeep 0 0 700 700)) []).length
          = (buildGrid 0 0 1000 1000 500 (rectKeep 0 0 700 700)).length
      ∧ (∀ j ∈ neighborsOf (buildGrid 0 0 1000 1000 500 (rectKeep 0 0 700 700)) 0,
          j < (buildGrid 0 0 1000 1000 500 (rectKeep 0 0 700 700)).length)) :=
  ⟨rectKeep_decides 0 0 700 700 (by norm_num) (by norm_num),
    grid_keeps_cells_meeting_boundary (rectRegion 0 0 700 700) (rectKeep 0 0 700 700)
      (rectKeep_decides 0 0 700 700 (by norm_num) (by norm_num)) 0 0 1000 1000 500 [] _ 0⟩

lemma cellCount_cons (p : Pt) (rest : List Pt) (b : Box) :
    cellCount (p :: rest) b = (if withinBox p b then 1 else 0) + cellCount rest b := by
  simp only [cellCount, List.filter_cons]
  split <;> simp [Nat.add_comm]

lemma sum_map_add {α : Type} (l : List α) (f g : α → ℕ) :
    (l.map (fun x => f x + g x)).sum = (l.map f).sum + (l.map g).sum := by
  induction l with
  | nil => simp
  | cons a t ih => simp [ih]; omega

lemma sum_indicator_eq_pointCellCount (grid : List Box) (p : Pt) :
    (grid.map (fun b => if withinBox p b then 1 else 0)).sum = pointCellCount grid p := by
  induction grid with
  | nil => simp [pointCellCount]
  | cons b t ih =>
    simp only [pointCellCount, List.filter_cons, List.map_cons, List.sum_cons]
    split <;> simp [ih, pointCellCount] <;> omega

lemma countVector_sum_exchange (grid : List Box) (pts : List Pt) :
    (countVector grid pts).sum = (pts.map (pointCellCount grid)).sum := by
  induction pts with
  | nil =>
    have hz : List.map (cellCount []) grid = List.map (fun _ => 0) grid :=
      List.map_congr_left (fun b _ => rfl)
    simp [countVector, hz]
  | cons p rest ih =>
    have hcv : countVector grid (p :: rest)
        = grid.map (fun b => (if withinBox p b then 1 else 0) + cellCount rest b) := by
      unfold countVector
      exact List.map_congr_left (fun b _ => cellCount_cons p rest b)
    rw [hcv, sum_map_add, sum_indicator_eq_pointCellCount]
    simp only [List.map_cons, List.sum_cons]
    rw [show (List.map (cellCount rest) grid).sum = (countVector grid rest).sum from rfl, ih]

lemma mkCellBox_strip_eq (xmin cs x : ℚ) (hcs : 0 < cs) (i i2 : ℕ)
    (h1 : xmin + i * cs < x) (h2 : x < xmin + i * cs + cs)
    (h3 : xmin + i2 * cs < x) (h4 : x < xmin + i2 * cs + cs) : i = i2 := by
  by_contra hne
  rcases Nat.lt_or_ge i i2 with hlt | hge
  · have hc : (i : ℚ) + 1 ≤ (i2 : ℚ) := by exact_mod_cast hlt
    nlinarith
  · have hlt2 : i2 < i := lt_of_le_of_ne hge (fun he => hne he.symm)
    have hc : (i2 : ℚ) + 1 ≤ (i : ℚ) := by exact_mod_cast hlt2
    nlinarith

lemma withinBox_mkCellBox_unique (xmin ymin cs : ℚ) (hcs : 0 < cs) (p : Pt) (i j i2 j2 : ℕ)
    (h1 : withinBox p (mkCellBox xmin ymin cs i j) = true)
    (h2 : withinBox p (mkCellBox xmin ymin cs i2 j2) = true) : i = i2 ∧ j = j2 := by
  simp only [withinBox, mkCellBox, Bool.and_eq_true, decide_eq_true_eq] at h1 h2
  obtain ⟨⟨⟨a1, a2⟩, a3⟩, a4⟩ := h1
  obtain ⟨⟨⟨b1, b2⟩, b3⟩, b4⟩ := h2
  exact ⟨mkCellBox_strip_eq xmin cs p.1 hcs i i2 a1 a2 b1 b2,
    mkCellBox_strip_eq ymin cs p.2 hcs j j2 a3 a4 b3 b4⟩

lemma mkCellBox_inj (xmin ymin cs : ℚ) (hcs : 0 < cs) (i j i2 j2 : ℕ)
    (h : mkCellBox xmin ymin cs i j = mkCellBox xmin ymin cs i2 j2) : i = i2 ∧ j = j2 := by
  have hx : xmin + (i : ℚ) * cs = xmin + (i2 : ℚ) * cs := congrArg Box.x1 h
  have hy : ymin + (j : ℚ) * cs = ymin + (j2 : ℚ) * cs := congrArg Box.y1 h
  have hi : (i : ℚ) = (i2 : ℚ) := by
    have := add_left_cancel hx
    exact mul_right_cancel₀ (ne_of_gt hcs) this
  have hj : (j : ℚ) = (j2 : ℚ) := by
    have := add_left_cancel hy
    exact mul_right_cancel₀ (ne_of_gt hcs) this
  exact ⟨Nat.cast_injective hi, Nat.cast_injective hj⟩

lemma mem_latticeCells (xmin ymin cs : ℚ) (cols rws : ℕ) (b : Box) :
    b ∈ latticeCells xmin ymin cs cols rws
      ↔ ∃ i j : ℕ, i < cols ∧ j < rws ∧ b = mkCellBox xmin ymin cs i j := by
  unfold latticeCells
  simp only [List.mem_flatMap, List.mem_map, List.mem_range]
  constructor
  · rintro ⟨i, hi, j, hj, rfl⟩
    exact ⟨i, j, hi, hj, rfl⟩
  · rintro ⟨i, j, hi, hj, rfl⟩
    exact ⟨i, hi, j, hj, rfl⟩

lemma latticeCells_nodup (xmin ymin cs : ℚ) (hcs : 0 < cs) (cols rws : ℕ) :
    (latticeCells xmin ymin cs cols rws).Nodup := by
  unfold latticeCells
  refine List.nodup_flatMap.2 ⟨fun i _ => ?_, ?_⟩
  · refine (List.nodup_range rws).map ?_
    intro j j2 he
    exact (mkCellBox_inj xmin ymin cs hcs i j i j2 he).2
  · refine List.Pairwise.imp ?_ (List.nodup_range cols)
    intro i i2 hne b hb1 hb2
    rcases List.mem_map.mp hb1 with ⟨j, _, rfl⟩
    rcases List.mem_map.mp hb2 with ⟨j2, _, he⟩
    exact hne (mkCellBox_inj xmin ymin cs hcs i2 j2 i j he).1.symm

lemma filter_length_le_one {α : Type} (l : List α) (q : α → Bool) (hnd : l.Nodup)
    (huniq : ∀ a b, a ∈ l → b ∈ l → q a = true → q b = true → a = b) :
    (l.filter q).length ≤ 1 := by
  cases hf : l.filter q with
  | nil => simp
  | cons a t =>
    cases t with
    | nil => simp
    | cons b t2 =>
      exfalso
      have hndf : (a :: b :: t2).Nodup := hf ▸ hnd.filter q
      have hab : a ≠ b := by
        have hc := List.nodup_cons.mp hndf
        exact fun he => hc.1 (he ▸ List.mem_cons_self b t2)
      have ha := List.mem_filter.mp (show a ∈ l.filter q from by
        rw [hf]; exact List.mem_cons_self a (b :: t2))
      have hb := List.mem_filter.mp (show b ∈ l.filter q from by
        rw [hf]; exact List.mem_cons_of_mem a (List.mem_cons_self b t2))
      exact hab (huniq a b ha.1 hb.1 ha.2 hb.2)

lemma mem_buildGrid_lattice (xmin ymin xmax ymax cs : ℚ) (keep : Box → Bool) (b : Box)
    (h : b ∈ buildGrid xmin ymin xmax ymax cs keep) :
    ∃ i j : ℕ, i < ceilDiv (xmax - xmin) cs ∧ j < ceilDiv (ymax - ymin) cs
      ∧ b = mkCellBox xmin ymin cs i j :=
  (mem_latticeCells xmin ymin cs _ _ b).mp (List.mem_of_mem_filter h)

lemma pointCellCount_buildGrid_le_one (xmin ymin xmax ymax cs : ℚ) (keep : Box → Bool)
    (hcs : 0 < cs) (p : Pt) :
    pointCellCount (buildGrid xmin ymin xmax ymax cs keep) p ≤ 1 := by
  unfold pointCellCount
  refine filter_length_le_one _ _ ((latticeCells_nodup xmin ymin cs hcs _ _).filter keep) ?_
  intro a b ha hb hqa hqb
  rcases mem_buildGrid_lattice xmin ymin xmax ymax cs keep a ha with ⟨i, j, _, _, rfl⟩
  rcases mem_buildGrid_lattice xmin ymin xmax ymax cs keep b hb with ⟨i2, j2, _, _, rfl⟩
  obtain ⟨rfl, rfl⟩ :=
    withinBox_mkCellBox_unique xmin ymin cs hcs p i j i2 j2 hqa hqb
  rfl

lemma sum_le_length_of_le_one : ∀ l : List ℕ, (∀ x ∈ l, x ≤ 1) → l.sum ≤ l.length := by
  intro l
  induction l with
  | nil => simp
  | cons a t ih =>
    intro h
    have ha := h a (List.mem_cons_self a t)
    have ht := ih (fun x hx => h x (List.mem_cons_of_mem a hx))
    simp only [List.sum_cons, List.length_cons]
    omega

lemma sum_eq_length_iff_of_le_one : ∀ l : List ℕ, (∀ x ∈ l, x ≤ 1) →
    (l.sum = l.length ↔ ∀ x ∈ l, x = 1) := by
  intro l
  induction l with
  | nil => simp
  | cons a t ih =>
    intro h
    have ha := h a (List.mem_cons_self a t)
    have hts := sum_le_length_of_le_one t (fun x hx => h x (List.mem_cons_of_mem a hx))
    have iht := ih (fun x hx => h x (List.mem_cons_of_mem a hx))
    simp only [List.sum_cons, List.length_cons]
    constructor
    · intro he
      have hsplit : a = 1 ∧ t.sum = t.length := by omega
      intro x hx
      rcases List.mem_cons.mp hx with rfl | hx2
      · exact hsplit.1
      · exact (iht.mp hsplit.2) x hx2
    · intro hall
      have ha1 := hall a (List.mem_cons_self a t)
      have hts1 := iht.mpr (fun x hx => hall x (List.mem_cons_of_mem a hx))
      omega

lemma filter_length_one_iff {α : Type} (l : List α) (q : α → Bool)
    (hle : (l.filter q).length ≤ 1) :
    ((l.filter q).length = 1 ↔ ∃ a ∈ l, q a = true) := by
  constructor
  · intro h1
    have hpos : 0 < (l.filter q).length := by omega
    rcases List.exists_mem_of_length_pos hpos with ⟨a, ha⟩
    have := List.mem_filter.mp ha
    exact ⟨a, this.1, this.2⟩
  · rintro ⟨a, hal, haq⟩
    have : a ∈ l.filter q := List.mem_filter.mpr ⟨hal, haq⟩
    have hpos := List.length_pos_of_mem this
    omega

lemma getD_map_count (l : List Box) (f : Box → ℕ) (k : ℕ) (h : k < l.length) :
    (l.map f).getD k 0 = f (l.getD k ⟨0, 0, 0, 0⟩) := by
  rw [List.getD_eq_getElem?_getD, List.getElem?_map, List.getElem?_eq_getElem h,
    List.getD_eq_getElem?_getD, List.getElem?_eq_getElem h]
  rfl

/-- C4: for a grid built by the grid builder, the count vector has one entry
per cell (entry `k` counting the points within cell `k`); a cell containing
no point counts 0; the total count never exceeds the number of points, with
equality exactly when every point lies within some surviving cell (points
outside every cell are silently dropped, with no error path). -/
theorem count_vector_conservation (xmin ymin xmax ymax cs : ℚ) (keep : Box → Bool)
    (pts : List Pt) (grid : List Box) (hcs : 0 < cs)
    (hg : grid = buildGrid xmin ymin xmax ymax cs keep) :
    (countVector grid pts).length = grid.length
    ∧ (∀ k, k < grid.length →
        (countVector grid pts).getD k 0 = cellCount pts (boxAt grid k))
    ∧ (∀ b ∈ grid, (∀ p ∈ pts, withinBox p b = false) → cellCount pts b = 0)
    ∧ (countVector grid pts).sum ≤ pts.length
    ∧ ((countVector grid pts).sum = pts.length
        ↔ ∀ p ∈ pts, ∃ b ∈ grid, withinBox p b = true) := by
  have hpcc : ∀ p : Pt, pointCellCount grid p ≤ 1 := by
    intro p
    rw [hg]
    exact pointCellCount_buildGrid_le_one xmin ymin xmax ymax cs keep hcs p
  have hmaple : ∀ x ∈ pts.map (pointCellCount grid), x ≤ 1 := by
    intro x hx
    rcases List.mem_map.mp hx with ⟨p, _, rfl⟩
    exact hpcc p
  have hmaplen : (pts.map (pointCellCount grid)).length = pts.length := by simp
  refine ⟨by simp [countVector], ?_, ?_, ?_, ?_⟩
  · intro k hk
    exact getD_map_count grid (cellCount pts) k hk
  · intro b _ hnone
    rw [cellCount, List.length_eq_zero, List.filter_eq_nil_iff]
    intro p hp
    simp [hnone p hp]
  · rw [countVector_sum_exchange]
    have := sum_le_length_of_le_one (pts.map (pointCellCount grid)) hmaple
    omega
  · rw [countVector_sum_exchange]
    rw [show pts.length = (pts.map (pointCellCount grid)).length from hmaplen.symm]
    rw [sum_eq_length_iff_of_le_one (pts.map (pointCellCount grid)) hmaple]
    constructor
    · intro hall p hp
      have h1 : pointCellCount grid p = 1 :=
        hall (pointCellCount grid p) (List.mem_map.mpr ⟨p, hp, rfl⟩)
      exact (filter_length_one_iff grid (fun b => withinBox p b) (hpcc p)).mp h1
    · intro hall x hx
      rcases List.mem_map.mp hx with ⟨p, hp, rfl⟩
      exact (filter_length_one_iff grid (fun b => withinBox p b) (hpcc p)).mpr (hall p hp)

/-- Witness for C4 on the 2-by-1 unit grid with one interior point, one
point in the second cell and one point outside the whole grid. -/
theorem count_vector_conservation_witness :
    ((0 : ℚ) < 1 ∧ buildGrid 0 0 2 1 1 (fun _ => true) = buildGrid 0 0 2 1 1 (fun _ => true))
    ∧ ((countVector (buildGrid 0 0 2 1 1 (fun _ => true)) [(1/2, 1/2), (3/2, 1/2), (5, 5)]).length
        = (buildGrid 0 0 2 1 1 (fun _ => true)).length
      ∧ (∀ k, k < (buildGrid 0 0 2 1 1 (fun _ => true)).length →
          (countVector (buildGrid 0 0 2 1 1 (fun _ => true))
              [(1/2, 1/2), (3/2, 1/2), (5, 5)]).getD k 0
            = cellCount [(1/2, 1/2), (3/2, 1/2), (5, 5)]
                (boxAt (buildGrid 0 0 2 1 1 (fun _ => true)) k))
      ∧ (∀ b ∈ buildGrid 0 0 2 1 1 (fun _ => true),
          (∀ p ∈ ([(1/2, 1/2), (3/2, 1/2), (5, 5)] : List Pt), withinBox p b = false) →
            cellCount [(1/2, 1/2), (3/2, 1/2), (5, 5)] b = 0)
      ∧ (countVector (buildGrid 0 0 2 1 1 (fun _ => true))
            [(1/2, 1/2), (3/2, 1/2), (5, 5)]).sum
          ≤ ([(1/2, 1/2), (3/2, 1/2), (5, 5)] : List Pt).length
      ∧ ((countVector (buildGrid 0 0 2 1 1 (fun _ => true))
            [(1/2, 1/2), (3/2, 1/2), (5, 5)]).sum
            = ([(1/2, 1/2), (3/2, 1/2), (5, 5)] : List Pt).length
          ↔ ∀ p ∈ ([(1/2, 1/2), (3/2, 1/2), (5, 5)] : List Pt),
              ∃ b ∈ buildGrid 0 0 2 1 1 (fun _ => true), withinBox p b = true)) :=
  ⟨⟨by norm_num, rfl⟩,
    count_vector_conservation 0 0 2 1 1 (fun _ => true) [(1/2, 1/2), (3/2, 1/2), (5, 5)]
      (buildGrid 0 0 2 1 1 (fun _ => true)) (by norm_num) rfl⟩

lemma buildGrid_two_cells :
    buildGrid 0 0 2 1 1 (fun _ => true) = [Box.mk 0 0 1 1, Box.mk 1 0 2 1] := by
  have h1 : ceilDiv (2 - 0) 1 = 2 := by norm_num [ceilDiv] <;> rfl
  have h2 : ceilDiv (1 - 0) 1 = 1 := by norm_num [ceilDiv] <;> rfl
  rw [buildGrid, h1, h2]
  simp [latticeCells, List.range_succ, mkCellBox]
  norm_num

/-- Counterexample to C7: the point `(1, 1)` touches the shared edge of the
two cells of a 2-by-1 grid, so it lies in the closed box of both; the
claimed tie-break would count it once in the lowest-index cell, but the
`within` join drops it: the count vector is `[0, 0]`. -/
theorem shared_edge_point_dropped_counterexample :
    memClosedBox (1, 1) (Box.mk 0 0 1 1) = true
    ∧ memClosedBox (1, 1) (Box.mk 1 0 2 1) = true
    ∧ buildGrid 0 0 2 1 1 (fun _ => true) = [Box.mk 0 0 1 1, Box.mk 1 0 2 1]
    ∧ countVector (buildGrid 0 0 2 1 1 (fun _ => true)) [(1, 1)] = [0, 0]
    ∧ (countVector (buildGrid 0 0 2 1 1 (fun _ => true)) [(1, 1)]).sum = 0 := by
  refine ⟨by decide, by decide, buildGrid_two_cells, ?_, ?_⟩ <;> rw [buildGrid_two_cells] <;> decide

/-- C7 amended: during density aggregation each point is counted in at most
one cell (cell interiors are pairwise disjoint, so multiple containment
cannot occur under the `within` predicate), and the total count equals the
number of points lying within (strictly inside) some cell; a point on a cell
edge is within no cell and is dropped even when one or more closed cell
boxes contain it — there is no tie-break assignment. -/
theorem point_counted_in_at_most_one_cell (xmin ymin xmax ymax cs : ℚ) (keep : Box → Bool)
    (pts : List Pt) (grid : List Box) (hcs : 0 < cs)
    (hg : grid = buildGrid xmin ymin xmax ymax cs keep) :
    (∀ p : Pt, pointCellCount grid p ≤ 1)
    ∧ (countVector grid pts).sum
        = (pts.filter (fun p => grid.any (fun b => withinBox p b))).length := by
  have hpcc : ∀ p : Pt, pointCellCount grid p ≤ 1 := by
    intro p
    rw [hg]
    exact pointCellCount_buildGrid_le_one xmin ymin xmax ymax cs keep hcs p
  refine ⟨hpcc, ?_⟩
  have hind : ∀ p : Pt, pointCellCount grid p
      = if grid.any (fun b => withinBox p b) then 1 else 0 := by
    intro p
    by_cases hany : grid.any (fun b => withinBox p b) = true
    · rw [if_pos hany]
      rcases List.any_eq_true.mp hany with ⟨b, hb, hw⟩
      exact (filter_length_one_iff grid (fun b => withinBox p b) (hpcc p)).mpr ⟨b, hb, hw⟩
    · rw [if_neg hany]
      have : ∀ b ∈ grid, ¬ (withinBox p b = true) := by
        intro b hb hw
        exact hany (List.any_eq_true.mpr ⟨b, hb, hw⟩)
      unfold pointCellCount
      rw [List.length_eq_zero, List.filter_eq_nil_iff]
      exact this
  rw [countVector_sum_exchange]
  induction pts with
  | nil => simp
  | cons p rest ih =>
    simp only [List.map_cons, List.sum_cons, List.filter_cons]
    rw [hind p]
    by_cases hany : grid.any (fun b => withinBox p b) = true
    · rw [if_pos hany, if_pos hany]
      simp [ih]
      omega
    · rw [if_neg hany, if_neg (by simpa using hany)]
      simp [ih]

/-- Witness for C7's amended statement on the concrete 2-by-1 grid with an
edge point and an interior point. -/
theorem point_counted_in_at_most_one_cell_witness :
    ((0 : ℚ) < 1 ∧ buildGrid 0 0 2 1 1 (fun _ => true) = buildGrid 0 0 2 1 1 (fun _ => true))
    ∧ ((∀ p : Pt, pointCellCount (buildGrid 0 0 2 1 1 (fun _ => true)) p ≤ 1)
      ∧ (countVector (buildGrid 0 0 2 1 1 (fun _ => true)) [(1, 1/2), (1/2, 1/2)]).sum
          = (([(1, 1/2), (1/2, 1/2)] : List Pt).filter
              (fun p => (buildGrid 0 0 2 1 1 (fun _ => true)).any
                (fun b => withinBox p b))).length) :=
  ⟨⟨by norm_num, rfl⟩,
    point_counted_in_at_most_one_cell 0 0 2 1 1 (fun _ => true) [(1, 1/2), (1/2, 1/2)]
      (buildGrid 0 0 2 1 1 (fun _ => true)) (by norm_num) rfl⟩


/-- Input with an empty boundary table (used by C8 and C10). -/
def inpEmptyBoundary : PipelineInput :=
  PipelineInput.mk (BoundaryTable.mk 0 (Box.mk 0 0 1000 1000) (fun _ => true))
    [(1, 1)] none none none

/-- Input with a non-empty but degenerate (zero-area) boundary. -/
def inpDegenerateBoundary : PipelineInput :=
  PipelineInput.mk (BoundaryTable.mk 1 (Box.mk 0 0 0 0) (fun _ => true))
    [(1, 1)] none none none

/-- An ambient random state with no draws. -/
def rngEmpty : Rng := Rng.mk [] (fun _ => [])

lemma pipelineBody_degenerate_bounds (rng : Rng) :
    pipelineBody inpDegenerateBoundary rng = .error "empty grid" := by
  have hceil : ceilDiv ((0 : ℚ) - 0) cellSizeDefault = 0 := by
    norm_num [ceilDiv, cellSizeDefault] <;> rfl
  have hceil2 : ceilDiv (0 : ℚ) cellSizeDefault = 0 := by
    norm_num [ceilDiv, cellSizeDefault] <;> rfl
  simp [pipelineBody, inpDegenerateBoundary, buildGrid, hceil, hceil2, latticeCells]

/-- Counterexample to C8: with an empty boundary table the run raises
nothing (it logs and returns `None`); with a degenerate (zero-area) boundary
the run does not abort before grid building: it proceeds, the degenerate
bounds yield an empty candidate grid, and the resulting failure is caught by
the catch-all handler — in neither case is an `InvalidBoundaryError`
surfaced to the caller. -/
theorem no_invalid_boundary_error_counterexample :
    (run_spatial_analysis inpEmptyBoundary rngEmpty).raised = none
    ∧ (run_spatial_analysis inpEmptyBoundary rngEmpty).outcome = Outcome.noData
    ∧ (run_spatial_analysis inpDegenerateBoundary rngEmpty).outcome
        = Outcome.caught "empty grid"
    ∧ (run_spatial_analysis inpDegenerateBoundary rngEmpty).raised = none := by
  have hrun : run_spatial_analysis inpDegenerateBoundary rngEmpty
      = (match pipelineBody inpDegenerateBoundary rngEmpty with
        | .ok (recs, gI, gP) => RunResult.mk none none (Outcome.saved recs gI gP)
        | .error e => RunResult.mk none none (Outcome.caught e)) := rfl
  refine ⟨rfl, rfl, ?_, ?_⟩ <;> rw [hrun, pipelineBody_degenerate_bounds rngEmpty]

/-- C8 amended: when the boundary table (or the amenity table) is empty, the
run logs an error and returns `None` before any grid is built — no exception
(in particular no `InvalidBoundaryError`) reaches the caller; a degenerate
non-empty boundary is not detected up front (see the counterexample: it
proceeds into grid building and ends in the catch-all handler). -/
theorem empty_input_logs_and_returns_none (inp : PipelineInput) (rng : Rng)
    (hs : inp.setupError = none) (hl : inp.loadError = none)
    (he : inp.boundary.nrows = 0 ∨ inp.amenities = []) :
    (run_spatial_analysis inp rng).outcome = Outcome.noData
    ∧ (run_spatial_analysis inp rng).raised = none
    ∧ (run_spatial_analysis inp rng).retVal = none := by
  unfold run_spatial_analysis
  rw [hs, hl]
  simp [he]

/-- Witness for C8's amended statement at a concrete empty-boundary input. -/
theorem empty_input_logs_and_returns_none_witness :
    (inpEmptyBoundary.setupError = none ∧ inpEmptyBoundary.loadError = none
      ∧ (inpEmptyBoundary.boundary.nrows = 0 ∨ inpEmptyBoundary.amenities = []))
    ∧ ((run_spatial_analysis inpEmptyBoundary rngEmpty).outcome = Outcome.noData
      ∧ (run_spatial_analysis inpEmptyBoundary rngEmpty).raised = none
      ∧ (run_spatial_analysis inpEmptyBoundary rngEmpty).retVal = none) :=
  ⟨⟨rfl, rfl, Or.inl rfl⟩,
    empty_input_logs_and_returns_none inpEmptyBoundary rngEmpty rfl rfl (Or.inl rfl)⟩

/-- Input identical to the empty-boundary one but whose pre-`try` setup
(creating the output directory / engine) fails. -/
def inpSetupFailure : PipelineInput :=
  PipelineInput.mk (BoundaryTable.mk 0 (Box.mk 0 0 1000 1000) (fun _ => true))
    [(1, 1)] (some "PermissionError") none none

/-- Counterexample to C10: a failure in the unguarded setup lines that run
before the `try` block (the `output_dir.mkdir` call) propagates to the
caller, so `run_spatial_analysis` does not catch every failure. -/
theorem setup_failure_propagates_counterexample :
    (run_spatial_analysis inpSetupFailure rngEmpty).raised = some "PermissionError"
    ∧ (run_spatial_analysis inpSetupFailure rngEmpty).raised ≠ none :=
  ⟨rfl, by simp [run_spatial_analysis, inpSetupFailure]⟩

/-- C10 amended: once the pre-`try` setup has succeeded, `run_spatial_analysis`
propagates no exception and always returns `None` (empty inputs log and
return early with outcome `noData`; any failure inside the `try` block —
loading, geometry, statistics, saving — ends in the catch-all handler), so
the caller cannot distinguish success from failure by the return value or a
raised error; only a failure of the unguarded setup lines before the `try`
escapes. -/
theorem run_never_raises_after_setup (inp : PipelineInput) (rng : Rng)
    (hs : inp.setupError = none) :
    (run_spatial_analysis inp rng).raised = none
    ∧ (run_spatial_analysis inp rng).retVal = none
    ∧ (inp.loadError = none → (inp.boundary.nrows = 0 ∨ inp.amenities = []) →
        (run_spatial_analysis inp rng).outcome = Outcome.noData) := by
  unfold run_spatial_analysis
  rw [hs]
  cases hl : inp.loadError with
  | some e =>
    refine ⟨rfl, rfl, fun hn => ?_⟩
    exact Option.noConfusion hn
  | none =>
    by_cases hemp : inp.boundary.nrows = 0 ∨ inp.amenities = []
    · simp [hemp]
    · refine ⟨?_, ?_, fun _ he => absurd he hemp⟩ <;>
        · rw [if_neg hemp]
          rcases hres : pipelineBody inp rng with e | ⟨recs, gI, gP⟩ <;> simp

/-- Witness for C10's amended statement: a run over a degenerate boundary
whose internal failure is caught, raising nothing and returning `None`. -/
theorem run_never_raises_after_setup_witness :
    inpDegenerateBoundary.setupError = none
    ∧ ((run_spatial_analysis inpDegenerateBoundary rngEmpty).raised = none
      ∧ (run_spatial_analysis inpDegenerateBoundary rngEmpty).retVal = none
      ∧ (inpDegenerateBoundary.loadError = none →
          (inpDegenerateBoundary.boundary.nrows = 0 ∨ inpDegenerateBoundary.amenities = []) →
          (run_spatial_analysis inpDegenerateBoundary rngEmpty).outcome = Outcome.noData)) :=
  ⟨rfl, run_never_raises_after_setup inpDegenerateBoundary rngEmpty rfl⟩

/-- A 1500-by-500 boundary fully covering its bounding box, with amenity
counts 0, 1, 2 over the three resulting 500-unit cells. -/
def inpThreeCells : PipelineInput :=
  PipelineInput.mk (BoundaryTable.mk 1 (Box.mk 0 0 1500 500) (fun _ => true))
    [(750, 250), (1250, 250), (1260, 260)] none none none

/-- The three-cell grid the builder produces for `inpThreeCells`. -/
def G3 : List Box :=
  [Box.mk 0 0 500 500, Box.mk 500 0 1000 500, Box.mk 1000 0 1500 500]

/-- The count vector of `inpThreeCells` as rationals. -/
def y3 : List ℚ := [0, 1, 2]

lemma buildGrid_three_cells :
    buildGrid 0 0 1500 500 cellSizeDefault (fun _ => true) = G3 := by
  have h1 : ceilDiv (1500 - 0) cellSizeDefault = 3 := by
    norm_num [ceilDiv, cellSizeDefault] <;> rfl
  have h2 : ceilDiv (500 - 0) cellSizeDefault = 1 := by
    norm_num [ceilDiv, cellSizeDefault] <;> rfl
  rw [buildGrid, h1, h2]
  simp [latticeCells, List.range_succ, mkCellBox, cellSizeDefault, G3]
  norm_num

lemma countVector_three_cells :
    countVector G3 [(750, 250), (1250, 250), (1260, 260)] = [0, 1, 2] := by decide

lemma cast_counts_three_cells :
    ([0, 1, 2] : List ℕ).map (fun k => (k : ℚ)) = y3 := by
  simp [y3]

lemma zvec_three_cells : zvec y3 = [-1, 0, 1] := by
  have hm : meanOf [(0 : ℚ), 1, 2] = 1 := by norm_num [meanOf, List.sum_cons]
  simp [zvec, y3, hm]
  norm_num

lemma neighbors_G3_2 : neighborsOf G3 2 = [1] := by decide

lemma rowTotal_G3_2 : rowTotal G3 2 = 1 := by
  rw [rowTotal_eq_card, neighbors_G3_2]
  norm_num

lemma wgt_G3_2 : wgt G3 2 0 = 0 ∧ wgt G3 2 1 = 1 ∧ wgt G3 2 2 = 0 := by
  refine ⟨?_, ?_, ?_⟩ <;>
    rw [wgt, if_neg (by rw [rowTotal_G3_2]; norm_num), binW, rowTotal_G3_2]
  · rw [if_neg (by rw [neighbors_G3_2]; simp)]
    norm_num
  · rw [if_pos (by rw [neighbors_G3_2]; simp)]
    norm_num
  · rw [if_neg (by rw [neighbors_G3_2]; simp)]
    norm_num

lemma z2ss_three_cells : z2ss (zvec y3) = 2 := by
  rw [zvec_three_cells]
  norm_num [z2ss]

lemma localIs_G3_2 : localIs G3 y3 2 = 0 := by
  unfold localIs lagAt
  rw [zvec_three_cells]
  rw [show G3.length = 3 from rfl]
  rw [Finset.sum_range_succ, Finset.sum_range_succ, Finset.sum_range_succ,
    Finset.sum_range_zero]
  rw [wgt_G3_2.1, wgt_G3_2.2.1, wgt_G3_2.2.2]
  norm_num [zAt]

lemma others_3_2 : othersOf 3 2 = [0, 1] := by decide

lemma localSim_G3_2_id : localSim G3 y3 2 [0, 1] = 0 := by
  unfold localSim
  rw [show G3.length = 3 from rfl]
  rw [Finset.sum_range_succ, Finset.sum_range_succ, Finset.sum_range_succ,
    Finset.sum_range_zero]
  rw [wgt_G3_2.1, wgt_G3_2.2.1, wgt_G3_2.2.2, zvec_three_cells]
  norm_num [condZ, others_3_2, zAt]

lemma localSim_G3_2_swap : localSim G3 y3 2 [1, 0] = -(3 / 2) := by
  unfold localSim
  rw [show G3.length = 3 from rfl]
  rw [Finset.sum_range_succ, Finset.sum_range_succ, Finset.sum_range_succ,
    Finset.sum_range_zero]
  rw [wgt_G3_2.1, wgt_G3_2.2.1, wgt_G3_2.2.2, zvec_three_cells]
  norm_num [condZ, others_3_2, zAt, z2ss]

lemma countP_replicate {α : Type} (p : α → Bool) (a : α) (n : ℕ) :
    (List.replicate n a).countP p = if p a then n else 0 := by
  induction n with
  | zero => simp
  | succ k ih =>
    rw [List.replicate_succ, List.countP_cons, ih]
    by_cases hp : p a = true <;> simp [hp]

lemma localPSim_G3_2_id_draws :
    localPSim G3 y3 2 (List.replicate 999 [0, 1]) = 1 / 1000 := by
  unfold localPSim localExtreme
  rw [List.map_replicate, countP_replicate]
  rw [decide_eq_true (by rw [localIs_G3_2, localSim_G3_2_id] : localIs G3 y3 2 ≤ localSim G3 y3 2 [0, 1])]
  norm_num

lemma localPSim_G3_2_mixed_draws :
    localPSim G3 y3 2 (List.replicate 500 [0, 1] ++ List.replicate 499 [1, 0]) = 1 / 2 := by
  unfold localPSim localExtreme
  rw [List.map_append, List.map_replicate, List.map_replicate, List.countP_append,
    countP_replicate, countP_replicate]
  rw [decide_eq_true (by rw [localIs_G3_2, localSim_G3_2_id] : localIs G3 y3 2 ≤ localSim G3 y3 2 [0, 1])]
  rw [decide_eq_false (by rw [localIs_G3_2, localSim_G3_2_swap]; norm_num : ¬ localIs G3 y3 2 ≤ localSim G3 y3 2 [1, 0])]
  norm_num

/-- Ambient random state 1: identity conditional draws everywhere. -/
def rngIdentity : Rng :=
  Rng.mk (List.replicate 999 [0, 1, 2]) (fun i => List.replicate 999 (othersOf 3 i))

/-- Ambient random state 2: same global draws, but the conditional draws for
cell 2 mix 500 identity draws with 499 swapped draws. -/
def rngMixed : Rng :=
  Rng.mk (List.replicate 999 [0, 1, 2])
    (fun i => if i = 2 then List.replicate 500 [0, 1] ++ List.replicate 499 [1, 0]
      else List.replicate 999 (othersOf 3 i))

lemma pipelineBody_three_cells (rng : Rng) :
    pipelineBody inpThreeCells rng
      = .ok ((List.range 3).map (fun i =>
            CellRecord.mk (boxAt G3 i) (([0, 1, 2] : List ℕ).getD i 0)
              ((lisaPs G3 y3 rng).getD i 0)
              (lisaClusterAt G3 y3 (lisaPs G3 y3 rng) i)
              (labelOf (lisaClusterAt G3 y3 (lisaPs G3 y3 rng) i))),
          moranI G3 y3, pSim G3 y3 (rng.globalDraws.take moranPermDefault)) := by
  unfold pipelineBody
  simp only [inpThreeCells]
  rw [buildGrid_three_cells, countVector_three_cells]
  rfl

/-- Projection reading the saved LISA p-value of cell `k` out of a run result. -/
def lisaPAt (r : RunResult) (k : ℕ) : Option ℚ :=
  match r.outcome with
  | Outcome.saved recs _ _ =>
      some ((recs.getD k (CellRecord.mk (Box.mk 0 0 0 0) 0 0 0 none)).lisa_p)
  | _ => none

lemma lisaPAt_run_three_cells (rng : Rng) :
    lisaPAt (run_spatial_analysis inpThreeCells rng) 2
      = some (localPSim G3 y3 2 ((rng.localDraws 2).take moranPermDefault)) := by
  have hrun : run_spatial_analysis inpThreeCells rng
      = (match pipelineBody inpThreeCells rng with
        | .ok (recs, gI, gP) => RunResult.mk none none (Outcome.saved recs gI gP)
        | .error e => RunResult.mk none none (Outcome.caught e)) := rfl
  rw [hrun, pipelineBody_three_cells rng]
  unfold lisaPAt
  simp only []
  rw [getD_range_map 3 2 _ _ (by norm_num)]
  simp only []
  rw [show (lisaPs G3 y3 rng).getD 2 0
      = localPSim G3 y3 2 ((rng.localDraws 2).take moranPermDefault) from by
    unfold lisaPs
    exact getD_range_map G3.length 2 _ 0 (by norm_num [G3])]

lemma lisaPAt_rngIdentity :
    lisaPAt (run_spatial_analysis inpThreeCells rngIdentity) 2 = some (1 / 1000) := by
  rw [lisaPAt_run_three_cells rngIdentity]
  rw [show rngIdentity.localDraws 2 = List.replicate 999 [0, 1] from by
    rw [show rngIdentity.localDraws 2 = List.replicate 999 (othersOf 3 2) from rfl, others_3_2]]
  rw [List.take_of_length_le (show (List.replicate 999 ([0, 1] : List ℕ)).length
      ≤ moranPermDefault from by rw [List.length_replicate]; norm_num [moranPermDefault])]
  rw [localPSim_G3_2_id_draws]

lemma lisaPAt_rngMixed :
    lisaPAt (run_spatial_analysis inpThreeCells rngMixed) 2 = some (1 / 2) := by
  rw [lisaPAt_run_three_cells rngMixed]
  rw [show rngMixed.localDraws 2
      = List.replicate 500 [0, 1] ++ List.replicate 499 [1, 0] from rfl]
  rw [List.take_of_length_le (show (List.replicate 500 ([0, 1] : List ℕ)
        ++ List.replicate 499 [1, 0]).length ≤ moranPermDefault from by
      rw [List.length_append, List.length_replicate, List.length_replicate]
      norm_num [moranPermDefault])]
  rw [localPSim_G3_2_mixed_draws]

/-- Counterexample to C9: two runs of the pipeline on identical inputs (and
with no seed — the script passes none and the library draws from the global
random state) observe different ambient permutation draws and save different
records: the LISA p-value of cell 2 is 1/1000 in one run and 1/2 in the
other, so the outputs are not byte-identical. -/
theorem identical_inputs_different_outputs_counterexample :
    lisaPAt (run_spatial_analysis inpThreeCells rngIdentity) 2 = some (1 / 1000)
    ∧ lisaPAt (run_spatial_analysis inpThreeCells rngMixed) 2 = some (1 / 2)
    ∧ run_spatial_analysis inpThreeCells rngIdentity
        ≠ run_spatial_analysis inpThreeCells rngMixed := by
  refine ⟨lisaPAt_rngIdentity, lisaPAt_rngMixed, fun he => ?_⟩
  have hproj := congrArg (fun r => lisaPAt r 2) he
  simp only [] at hproj
  rw [lisaPAt_rngIdentity, lisaPAt_rngMixed] at hproj
  have : (1 : ℚ) / 1000 = 1 / 2 := Option.some.inj hproj
  norm_num at this

/-- The random-independent view of a run: how it ended, and for a completed
run the saved geometry and count fields together with the observed global
Moran's I (the pseudo p-values and the thresholded labels are excluded). -/
inductive DetSummary where
  | setupFailed (msg : String)
  | noData
  | caught (msg : String)
  | saved (cells : List (Box × ℕ)) (globalI : ℚ)
deriving DecidableEq

/-- Project a run result onto its random-independent view. -/
def detView (r : RunResult) : DetSummary :=
  match r.outcome with
  | Outcome.setupFailed e => DetSummary.setupFailed e
  | Outcome.noData => DetSummary.noData
  | Outcome.caught e => DetSummary.caught e
  | Outcome.saved recs gI _ => DetSummary.saved (recs.map (fun c => (c.geometry, c.count))) gI

/-- C9 amended: re-running the pipeline on identical inputs always reproduces
the deterministic outputs — the outcome kind, the saved cell geometries and
counts, and the observed global Moran's I — as well as the (always-`None`)
return value and the absence of a raised error, whatever permutation draws
the two runs observe; the pseudo p-values are not reproducible because the
script neither seeds nor passes a random source (see the counterexample). -/
theorem identical_inputs_identical_deterministic_fields (inp : PipelineInput)
    (rng1 rng2 : Rng) :
    detView (run_spatial_analysis inp rng1) = detView (run_spatial_analysis inp rng2)
    ∧ (run_spatial_analysis inp rng1).raised = (run_spatial_analysis inp rng2).raised
    ∧ (run_spatial_analysis inp rng1).retVal = (run_spatial_analysis inp rng2).retVal := by
  unfold run_spatial_analysis
  cases hs : inp.setupError with
  | some e => exact ⟨rfl, rfl, rfl⟩
  | none =>
    cases hl : inp.loadError with
    | some e => exact ⟨rfl, rfl, rfl⟩
    | none =>
      by_cases hemp : inp.boundary.nrows = 0 ∨ inp.amenities = []
      · simp only [if_pos hemp]
        refine ⟨?_, ?_, ?_⟩ <;> first | rfl | trivial
      · simp only [if_neg hemp]
        unfold pipelineBody
        by_cases hg0 : (buildGrid inp.boundary.bounds.x1 inp.boundary.bounds.y1
            inp.boundary.bounds.x2 inp.boundary.bounds.y2 cellSizeDefault
            inp.boundary.hits).length = 0
        · simp only [if_pos hg0]
          refine ⟨?_, ?_, ?_⟩ <;> first | rfl | trivial
        · simp only [if_neg hg0]
          cases hsv : inp.saveError with
          | some e => exact ⟨rfl, rfl, rfl⟩
          | none =>
            refine ⟨?_, rfl, rfl⟩
            unfold detView
            simp only [List.map_map]
            rfl
